import Mathlib

/-!
Verification of the Shein_API image-processing backend against its design
specification.  The Python services are shallowly embedded as executable
Lean definitions:

* `src/services/mask_service.py`    — masking pipeline (upload, graph
  mutation, poll `_poll_history`, resolve `_fetch_first_image`).
* `src/services/workflow_service.py` — background-replace pipeline
  (`update_workflow`, `download_processed_image`, `process_images_api`).
* `src/services/rename_service.py`  — face-presence renaming
  (`next_closeup_name`, `FaceDetectionProcessor.process_images`).

JSON dictionaries are modelled as insertion-ordered association lists
(CPython dict iteration order is insertion order), Python truthiness of
dicts/lists/strings is modelled explicitly, and network effects are
supplied by explicit oracle parameters (a list of poll responses, a
per-variant fetch outcome list, per-stage upload/submit outcomes).
-/

namespace Shein

/-- An entry of a node's `images` list in ComfyUI history:
`{'filename': ..., 'subfolder': ..., 'type': ...}` where `subfolder` and
`type` are optional (read with `.get` and a default). -/
structure ImageRef where
  filename : String
  subfolder : Option String
  ty : Option String
deriving DecidableEq, Repr

/-- A node entry of the `outputs` mapping of a history record.  `images?`
is `some l` when the node dict has an `images` key (the list may be
empty); `hasOtherKeys` records whether the dict has any further keys, so
that Python truthiness of the dict (`not node`) is expressible. -/
structure NodeOut where
  images? : Option (List ImageRef)
  hasOtherKeys : Bool
deriving DecidableEq, Repr

/-- The per-job record of a history response: `{'outputs': {...}}`
(`outputs` read with default `{}`). -/
structure JobEntry where
  outputs : List (String × NodeOut)
deriving DecidableEq, Repr

/-- `outputs` mapping: node id (string) to node output dict. -/
abbrev Outputs := List (String × NodeOut)

/-- A history response body: mapping from prompt id to job entry. -/
abbrev History := List (String × JobEntry)

/-- Python `d.get(k)` on an insertion-ordered dict. -/
def lookupA {α : Type} (l : List (String × α)) (k : String) : Option α :=
  (l.find? (fun p => p.1 == k)).map (fun p => p.2)

/-- Python `d[k] = v`: replace in place when the key exists, append
otherwise (insertion order preserved). -/
def assocSet {α : Type} (l : List (String × α)) (k : String) (v : α) : List (String × α) :=
  match l with
  | [] => [(k, v)]
  | p :: rest => if p.1 == k then (k, v) :: rest else p :: assocSet rest k v

/-- Python truthiness of a node dict: `not node` holds exactly when the
dict is empty. -/
def truthyNode (n : NodeOut) : Bool :=
  n.images?.isSome || n.hasOtherKeys

/-- Truthiness of `outputs.get(nodeId)` (None and `{}` are both falsy). -/
def truthyOpt (n : Option NodeOut) : Bool :=
  match n with
  | none => false
  | some node => truthyNode node

/-- Python truthiness of `node.get("images")`: the key is present and the
list is non-empty. -/
def nodeImagesTruthy (n : NodeOut) : Bool :=
  match n.images? with
  | some l => !l.isEmpty
  | none => false

/-- `node["images"]` after a truthiness check (empty when absent; only
read under `nodeImagesTruthy`). -/
def imagesOf (n : NodeOut) : List ImageRef :=
  n.images?.getD []

/-- The fallback scan of both resolvers: the first node of the outputs
mapping whose `images` entry is truthy
(`for _, v in outputs.items(): if v.get("images"): node = v; break`). -/
def firstWithImages (outputs : Outputs) : Option NodeOut :=
  (outputs.find? (fun p => nodeImagesTruthy p.2)).map (fun p => p.2)

/-! ### mask_service: output resolution (`_poll_history` lines 82-89 and
`_fetch_first_image` lines 104-113) -/

/-- `OUTPUT_NODE_ID` default of mask_service (env-configurable). -/
def OUTPUT_NODE_ID : String := "455"

/-- `INPUT_NODE_ID` default of mask_service (env-configurable). -/
def INPUT_NODE_ID : String := "54"

/-- mask_service node selection: `node = outputs.get(designated)`; only
`if not node:` (absent or empty dict) triggers the fallback scan. -/
def maskResolve (designated : String) (outputs : Outputs) : Option NodeOut :=
  let node := lookupA outputs designated
  if truthyOpt node then node else firstWithImages outputs

/-- `_fetch_first_image` (network fetch elided): resolve the node, fail
with "No output images found" unless the selected node is truthy with a
truthy `images` list, else return the first image reference. -/
def fetch_first_image (designated : String) (outputs : Outputs) : Except String ImageRef :=
  match maskResolve designated outputs with
  | none => .error "No output images found"
  | some n =>
    match n.images? with
    | some (i :: _) => .ok i
    | _ => .error "No output images found"

/-- The readiness test of one 200-status poll of `_poll_history`
(lines 81-92): `hist` truthy, prompt id present, and the selected node
has a truthy `images` list. -/
def maskReady (pid designated : String) (hist : History) : Bool :=
  !hist.isEmpty &&
    match lookupA hist pid with
    | none => false
    | some entry =>
      match maskResolve designated entry.outputs with
      | some n => nodeImagesTruthy n
      | none => false

/-- One tick of a polling loop: either a non-200 response (status code
recorded) or a 200 response with a parsed JSON body. -/
inductive PollResp where
  | fail (status : Nat)
  | ok (hist : History)
deriving Repr

/-- `_poll_history` of mask_service: the list holds the response of each
tick that occurs before the deadline (`while time.time() < deadline`);
a non-200 response is logged and the loop continues; exhausting the list
is the 504 timeout.  Also returns the number of polls made. -/
def maskPollLoop (pid designated : String) : List PollResp → Option History × Nat
  | [] => (none, 0)
  | r :: rest =>
    let hit : Option History :=
      match r with
      | .fail _ => none
      | .ok hist => if maskReady pid designated hist then some hist else none
    match hit with
    | some h => (some h, 1)
    | none =>
      let (res, n) := maskPollLoop pid designated rest
      (res, n + 1)

/-! ### workflow_service: polling and output resolution
(`download_processed_image`, lines 292-382) -/

/-- The break test of the polling loop of `download_processed_image`
(line 301): mere key presence (`if prompt_id in history: break`). -/
def wfReadyBreak (pid : String) (hist : History) : Bool :=
  (lookupA hist pid).isSome

/-- The polling loop of `download_processed_image` (lines 295-316): the
list holds one response per attempt (`max_attempts` many); a request
exception (non-200 raises via `raise_for_status`) is caught and logged;
exhausting the attempts (or the elapsed-time check) returns failure.
Also returns the number of polls made. -/
def wfPollLoop (pid : String) : List PollResp → Option History × Nat
  | [] => (none, 0)
  | r :: rest =>
    let hit : Option History :=
      match r with
      | .fail _ => none
      | .ok hist => if wfReadyBreak pid hist then some hist else none
    match hit with
    | some h => (some h, 1)
    | none =>
      let (res, n) := wfPollLoop pid rest
      (res, n + 1)

/-- The empty dict default of `outputs.get("15", {})`. -/
def emptyNode : NodeOut := { images? := none, hasOtherKeys := false }

/-- Output-node resolution of `download_processed_image` (lines 319-337):
take node "15" (default `{}`); when it is falsy or lacks an `images` key,
scan for the first node with a truthy `images` list; when that also
fails, give up.  Returns the `images` list of the selected node. -/
def wfResolve (outputs : Outputs) : Option (List ImageRef) :=
  let preview := (lookupA outputs "15").getD emptyNode
  if !truthyNode preview || preview.images?.isNone then
    match firstWithImages outputs with
    | some v => some (imagesOf v)
    | none => none
  else
    some (imagesOf preview)

/-- The images list selected for a given history body and prompt id
(line 319 reads `history[prompt_id]`: guaranteed present after the
break; modelled with an empty default). -/
def wfHistImages (pid : String) (hist : History) : Option (List ImageRef) :=
  let outputs := ((lookupA hist pid).map JobEntry.outputs).getD []
  wfResolve outputs

/-- The completion verdict of `download_processed_image` for a history
body, with every per-variant fetch succeeding: the download loop covers
`images[:4]` and the call succeeds iff at least one variant downloads
(lines 336-382). -/
def wfHistDecision (pid : String) (hist : History) : Bool :=
  match wfHistImages pid hist with
  | some l => !(l.take 4).isEmpty
  | none => false

/-! ### Path arithmetic (`os.path.basename/dirname/splitext/join`) -/

/-- Index of the last occurrence of a character. -/
def lastIdx (c : Char) (l : List Char) : Option Nat :=
  match l.reverse.findIdx? (fun x => x == c) with
  | none => none
  | some ri => some (l.length - 1 - ri)

/-- `os.path.basename`: the part after the last slash. -/
def basenameCore (l : List Char) : List Char :=
  (l.reverse.takeWhile (fun x => x != '/')).reverse

/-- `os.path.dirname`: the part before the last slash, with trailing
slashes stripped unless the result would be empty. -/
def dirnameCore (l : List Char) : List Char :=
  let head := l.take (l.length - (basenameCore l).length)
  let stripped := (head.reverse.dropWhile (fun x => x == '/')).reverse
  if stripped.isEmpty then head else stripped

/-- `os.path.splitext` on a basename: split at the last dot, except when
every character up to that dot is itself a dot (leading-dot rule). -/
def splitextCore (l : List Char) : List Char × List Char :=
  match lastIdx '.' l with
  | none => (l, [])
  | some p =>
    if (l.takeWhile (fun x => x == '.')).length ≤ p then (l.take p, l.drop p)
    else (l, [])

def basenameStr (s : String) : String := String.mk (basenameCore s.data)

def dirnameStr (s : String) : String := String.mk (dirnameCore s.data)

/-- `os.path.splitext` on a full path: only dots of the basename count. -/
def splitextStr (s : String) : String × String :=
  let d := s.data
  let b := basenameCore d
  let (stem, ext) := splitextCore b
  (String.mk (d.take (d.length - b.length) ++ stem), String.mk ext)

/-- ASCII lowercasing of one character (Python `str.lower` on the
ASCII filenames involved). -/
def charLower (c : Char) : Char :=
  if 'A' ≤ c ∧ c ≤ 'Z' then Char.ofNat (c.toNat + 32) else c

/-- Python `s.lower()`. -/
def toLowerStr (s : String) : String := String.mk (s.data.map charLower)

/-- Python `s.endswith(suff)`. -/
def endsWithL (s suff : String) : Bool := suff.data.isSuffixOf s.data

/-- `os.path.join` for a relative second component. -/
def joinPath (a b : String) : String :=
  if a = "" then b
  else if endsWithL a "/" then a ++ b
  else a ++ "/" ++ b

/-- One decimal digit character. -/
def digit (d : Nat) : Char :=
  if d = 0 then '0' else if d = 1 then '1' else if d = 2 then '2'
  else if d = 3 then '3' else if d = 4 then '4' else if d = 5 then '5'
  else if d = 6 then '6' else if d = 7 then '7' else if d = 8 then '8'
  else '9'

/-- Fuel-driven digit production (structural recursion, so that concrete
values reduce in the kernel); `natDigits` supplies ample fuel. -/
def natDigitsAux : Nat → Nat → List Char
  | 0, _ => []
  | fuel + 1, n =>
    if n < 10 then [digit n]
    else natDigitsAux fuel (n / 10) ++ [digit (n % 10)]

/-- Decimal digit list of a natural number (models Python `str(int)`). -/
def natDigits (n : Nat) : List Char := natDigitsAux (n + 1) n

theorem natDigitsAux_congr (f1 : Nat) : ∀ (f2 n : Nat), n < f1 → n < f2 →
    natDigitsAux f1 n = natDigitsAux f2 n := by
  induction f1 with
  | zero => intro f2 n h1 _; omega
  | succ f ih =>
    intro f2 n h1 h2
    cases f2 with
    | zero => omega
    | succ f2p =>
      by_cases hn : n < 10
      · simp [natDigitsAux, hn]
      · have hdiv : n / 10 < n := Nat.div_lt_self (by omega) (by norm_num)
        simp only [natDigitsAux, hn, if_false]
        rw [ih (f2p) (n / 10) (by omega) (by omega)]

/-- The recursion equation of `natDigits`. -/
theorem natDigits_eq (n : Nat) :
    natDigits n = if n < 10 then [digit n]
      else natDigits (n / 10) ++ [digit (n % 10)] := by
  have hstep : natDigitsAux (n + 1) n
      = if n < 10 then [digit n] else natDigitsAux n (n / 10) ++ [digit (n % 10)] := rfl
  by_cases hn : n < 10
  · simp [natDigits, hstep, hn]
  · have hdiv : n / 10 < n := Nat.div_lt_self (by omega) (by norm_num)
    show natDigitsAux (n + 1) n = _
    rw [hstep]
    simp only [hn, if_false]
    rw [natDigitsAux_congr n (n / 10 + 1) (n / 10) (by omega) (by omega)]
    rfl

/-- Decimal rendering of a natural number (Python `str(int)` / f-string
interpolation of an `int`). -/
def decStr (n : Nat) : String := String.mk (natDigits n)

/-! ### workflow_service: variant download naming (lines 341-375) -/

/-- Destination of the variant with 0-based index `idx`: the first
variant takes the caller-supplied path verbatim, variant `idx ≥ 1` is
`{base_name}_variant_{idx+1}{ext}` joined onto the base directory. -/
def variant_path (output_path : String) (idx : Nat) : String :=
  if idx = 0 then output_path
  else
    joinPath (dirnameStr output_path)
      ((splitextStr (basenameStr output_path)).1 ++ "_variant_" ++ decStr (idx + 1)
        ++ (splitextStr output_path).2)

/-- The destinations attempted by the download loop, in list order:
one per element of `images[:4]`. -/
def variantPathsAll (output_path : String) (images : List ImageRef) : List String :=
  (List.range (images.take 4).length).map (variant_path output_path)

/-- The files actually written, given the per-variant fetch outcomes
(a failed fetch is logged and skipped). -/
def writtenPaths (output_path : String) (images : List ImageRef) (fetchOk : List Bool) :
    List String :=
  ((variantPathsAll output_path images).zip fetchOk).filterMap
    (fun x => if x.2 then some x.1 else none)

/-- `downloaded_count` of `download_processed_image`. -/
def downloadedCount (output_path : String) (images : List ImageRef) (fetchOk : List Bool) :
    Nat :=
  (writtenPaths output_path images fetchOk).length

/-- Verdict of the download phase: success iff at least one variant was
written (lines 377-382). -/
def downloadPhaseSuccess (output_path : String) (images : List ImageRef)
    (fetchOk : List Bool) : Bool :=
  decide (0 < downloadedCount output_path images fetchOk)

/-! ### Graph templates and the two mutators -/

/-- A workflow node: only its `inputs` mapping matters to the mutators
(templates always carry `inputs`; the values written are strings —
uploaded filenames and prompt text). -/
structure WfNode where
  inputs : List (String × String)
deriving DecidableEq, Repr

/-- A job-graph template: node id to node descriptor. -/
abbrev Workflow := List (String × WfNode)

/-- `if nid in w: w[nid]['inputs'][key] = v` — one guarded assignment of
`update_workflow`; an absent node id is silently skipped. -/
def setInput (w : Workflow) (nid key v : String) : Workflow :=
  match lookupA w nid with
  | none => w
  | some node => assocSet w nid { node with inputs := assocSet node.inputs key v }

/-- `update_workflow` of workflow_service (lines 221-257): five guarded
assignments on a deep copy of the template (the copy is expressed by the
heap model below; this is the pure value computed for the copy).  The
try/except of the source cannot fire in the model, so the `None` return
is unreachable. -/
def update_workflow (w : Workflow) (input_filename mask_filename bg_filename
    style_filename : String) (prompt_data : List (String × String)) : Workflow :=
  let w1 := setInput w "454" "image" input_filename
  let w2 := setInput w1 "439" "image" mask_filename
  let w3 := setInput w2 "256" "image" bg_filename
  let w4 := setInput w3 "110" "image" style_filename
  let prompt_text := (lookupA prompt_data "text").getD
    "Generate a scene with the provided image and style"
  setInput w4 "448" "string" prompt_text

/-- The graph mutation of `_process_single_image` of mask_service
(lines 138-143): `graph.get(INPUT_NODE_ID)` (the `int` fallback key is
never present in a JSON-parsed graph); a missing input node raises
HTTP 500, otherwise the node's `image` input is set in place
(`setdefault("inputs", {})["image"] = comfy_name`). -/
def mask_set_input (graph : Workflow) (comfy_name : String) : Except String Workflow :=
  match lookupA graph INPUT_NODE_ID with
  | none => .error "Input node 54 not found in workflow JSON"
  | some node =>
    .ok (assocSet graph INPUT_NODE_ID { node with inputs := assocSet node.inputs "image" comfy_name })

/-! ### A small heap so that in-place mutation versus deep copy is
observable.  A `Store` holds the graph objects alive in the process;
a graph reference is an index. -/

abbrev Store := List Workflow

def readRef (st : Store) (r : Nat) : Workflow := st.getD r []

def writeRef (st : Store) (r : Nat) (w : Workflow) : Store := st.set r w

/-- `json.loads(json.dumps(x))`: allocate a structurally equal, disjoint
object and return its reference. -/
def deepcopyRef (st : Store) (r : Nat) : Store × Nat :=
  (st ++ [readRef st r], st.length)

/-- `update_workflow` as called on a template object: line 225 deep-copies
the argument, every assignment targets the copy, and the copy's
reference is returned. -/
def update_workflow_call (st : Store) (r : Nat) (input_filename mask_filename bg_filename
    style_filename : String) (prompt_data : List (String × String)) : Store × Nat :=
  let (st1, c) := deepcopyRef st r
  (writeRef st1 c (update_workflow (readRef st1 c) input_filename mask_filename
    bg_filename style_filename prompt_data), c)

/-- The mutation step of `_process_single_image` as called on a graph
object: the object passed is mutated in place. -/
def mask_set_input_call (st : Store) (r : Nat) (comfy_name : String) : Except String Store :=
  match mask_set_input (readRef st r) comfy_name with
  | .error e => .error e
  | .ok w => .ok (writeRef st r w)

/-- The ZIP branch of `process_image` (mask_service lines 241-243): a
deep copy of the loaded template is made per image and the mutation is
applied to the copy. -/
def mask_zip_step (st : Store) (r : Nat) (comfy_name : String) :
    Except String (Store × Nat) :=
  let (st1, c) := deepcopyRef st r
  match mask_set_input_call st1 c comfy_name with
  | .error e => .error e
  | .ok st2 => .ok (st2, c)

/-! ### workflow_service: style resolution and pairing -/

/-- The extension filter of `os.listdir`/`os.walk` scans
(lowercase endswith `.png`/`.jpg`/`.jpeg`). -/
def imageExt (f : String) : Bool :=
  endsWithL (toLowerStr f) ".png" || endsWithL (toLowerStr f) ".jpg"
    || endsWithL (toLowerStr f) ".jpeg"

/-- Python `needle in hay` on strings (substring containment). -/
def containsSub (needle hay : List Char) : Bool :=
  if needle.isPrefixOf hay then true
  else
    match hay with
    | [] => false
    | _ :: t => containsSub needle t

/-- The similarity score of `find_style_file_matches` (lines 198-207):
one point per direction of case-insensitive substring containment of the
style name versus the file stem, ten bonus points for equality. -/
def scoreOf (style_name file_path : String) : Nat :=
  let stem := toLowerStr (splitextStr (basenameStr file_path)).1
  let s := toLowerStr style_name
  (if containsSub s.data stem.data then 1 else 0)
    + (if containsSub stem.data s.data then 1 else 0)
    + (if s = stem then 10 else 0)

/-- The best-match fold (lines 191-211): first file with a strictly
greater score wins; the initial best score is 0, so a retained match has
score at least 1 and the trailing `best_score > 0` check is redundant. -/
def bestMatch (style_name : String) (style_files : List String) : Option String :=
  (style_files.foldl
    (fun acc file_path =>
      if acc.1 < scoreOf style_name file_path then (scoreOf style_name file_path, some file_path)
      else acc)
    ((0 : Nat), (none : Option String))).2

/-- `find_style_file_matches` (lines 172-219): filter the walked style
folder by image extension, then map each required style to its best
match; unmatched styles get no entry. -/
def find_style_file_matches (required_styles : List String) (walked_files : List String) :
    List (String × String) :=
  let style_files := walked_files.filter imageExt
  required_styles.filterMap (fun s => (bestMatch s style_files).map (fun f => (s, f)))

/-- One product record of `prompts.json`. -/
structure ProductData where
  text? : Option String
  style_image? : Option String
deriving DecidableEq, Repr

/-- `product_data.get('style_image')` with Python truthiness (an empty
string is falsy and is not collected). -/
def styleOf (p : ProductData) : Option String :=
  match p.style_image? with
  | some s => if s = "" then none else some s
  | none => none

/-- `get_required_style_images` (lines 158-170): collect the truthy
`style_image` of every product into a set (modelled as first-occurrence
deduplication; CPython set order is unspecified, only membership is used
by the claims). -/
def get_required_style_images (prompts_data : List (String × ProductData)) : List String :=
  (prompts_data.filterMap (fun p => styleOf p.2)).dedup

/-- The pairing step of `process_images_api` (lines 453-472): filter both
directory listings by image extension, then pair each input with
`{base}.jpg` when present in the mask listing, else `{base}.png` when
present; other inputs are skipped. -/
def matching_pairs (input_listing mask_listing : List String) : List (String × String) :=
  let input_images := input_listing.filter imageExt
  let mask_files := mask_listing.filter imageExt
  input_images.filterMap (fun image_file =>
    let image_base := (splitextStr image_file).1
    let mask_jpg := image_base ++ ".jpg"
    let mask_png := image_base ++ ".png"
    if mask_jpg ∈ mask_files || mask_png ∈ mask_files then
      some (image_file, if mask_jpg ∈ mask_files then mask_jpg else mask_png)
    else none)

/-- The inputs skipped with a warning log by the pairing step. -/
def skippedInputs (input_listing mask_listing : List String) : List String :=
  let input_images := input_listing.filter imageExt
  let mask_files := mask_listing.filter imageExt
  input_images.filter (fun image_file =>
    let image_base := (splitextStr image_file).1
    !((image_base ++ ".jpg") ∈ mask_files || (image_base ++ ".png") ∈ mask_files))

/-! ### workflow_service: batch orchestration (`process_images_api`,
lines 388-572) -/

/-- Stage outcomes of one input/mask pair, supplied by the network
oracle: the upload results of input and mask, the submission result, and
whether `download_processed_image` succeeded.  `update_workflow` cannot
fail in the model, so it has no field. -/
structure PairEnv where
  inputUpload : Option String
  maskUpload : Option String
  submit : Option String
  download : Bool
deriving DecidableEq, Repr

/-- One pair succeeds when every stage does (lines 513-556: any stage
failure increments `failed_images` and the loop continues). -/
def pairSucceeds (e : PairEnv) : Bool :=
  e.inputUpload.isSome && e.maskUpload.isSome && e.submit.isSome && e.download

/-- The per-pair loop (lines 506-561): every pair is visited, successes
and failures are counted, no failure aborts the loop. -/
def processPairs : List PairEnv → Nat × Nat
  | [] => (0, 0)
  | e :: rest =>
    let (s, f) := processPairs rest
    if pairSucceeds e then (s + 1, f) else (s, f + 1)

/-- The verdict on the batch counters (lines 565-568): zero successes
raise, otherwise the call returns `True`. -/
def batchVerdict (successes : Nat) : Except String Bool :=
  if successes = 0 then .error "No images were processed successfully" else .ok true

/-- The environment of one `process_images_api` run: everything the
function reads from disk or the network. -/
structure WfEnv where
  /-- Result of uploading the background template (`None` on failure). -/
  bgUpload : Option String
  /-- The parsed `prompts.json`. -/
  prompts : List (String × ProductData)
  /-- Files found walking the style folder. -/
  styleFiles : List String
  /-- Upload result per style file path. -/
  styleUpload : String → Option String
  /-- `os.listdir(input_folder)`. -/
  inputFiles : List String
  /-- `os.listdir(mask_folder)`. -/
  maskFiles : List String
  /-- Stage outcomes of the pair at each position. -/
  pairEnv : Nat → PairEnv

/-- Observable outcome of one `process_images_api` run. -/
structure RunOutcome where
  /-- `.error` models a raised exception, `.ok true` the success return. -/
  result : Except String Bool
  /-- Number of pairs whose per-pair stages were entered. -/
  pairsAttempted : Nat
  successes : Nat
  failures : Nat
deriving Repr

/-- `process_images_api` (lines 388-572): background upload, style-name
extraction, style matching, style uploads — each all-or-nothing — then
pairing and the per-pair loop.  Raising before the loop leaves
`pairsAttempted = 0`. -/
def process_images_api (env : WfEnv) : RunOutcome :=
  match env.bgUpload with
  | none => ⟨.error "Failed to upload background file", 0, 0, 0⟩
  | some _ =>
    let required_styles := get_required_style_images env.prompts
    if required_styles.isEmpty then
      ⟨.error "No style images referenced in prompts.json", 0, 0, 0⟩
    else
      let style_file_matches := find_style_file_matches required_styles env.styleFiles
      let missing_styles := required_styles.filter
        (fun s => (lookupA style_file_matches s).isNone)
      if !missing_styles.isEmpty then
        ⟨.error "Missing required style images", 0, 0, 0⟩
      else
        let upload_failures := style_file_matches.filter
          (fun p => (env.styleUpload p.2).isNone)
        if !upload_failures.isEmpty then
          ⟨.error "Failed to upload style images", 0, 0, 0⟩
        else
          let pairs := matching_pairs env.inputFiles env.maskFiles
          if pairs.isEmpty then
            ⟨.error "No matching image-mask pairs found", 0, 0, 0⟩
          else
            let stageEnvs := (List.range pairs.length).map env.pairEnv
            let (s, f) := processPairs stageEnvs
            ⟨batchVerdict s, pairs.length, s, f⟩

/-! ### rename_service: closeup naming (`next_closeup_name` lines 84-91,
`process_images` lines 93-187) -/

/-- The name pattern `f"closeup({index}){ext}"`. -/
def closeupName (index : Nat) (ext : String) : String :=
  "closeup(" ++ decStr index ++ ")" ++ ext

/-- Greatest length of a string of the list (used to bound the loop of
`next_closeup_name`). -/
def maxLen : List String → Nat
  | [] => 0
  | s :: t => max s.length (maxLen t)

/-- The loop of `next_closeup_name`: starting at `index`, return the
first index whose name is not in `existing_names`.  The source loop is
`while True`; here the fuel is chosen large enough that a free index is
always reached (see `nextIdx_finds`). -/
def nextIdx (existing : List String) (ext : String) (index : Nat) : Nat → Nat
  | 0 => index
  | fuel + 1 =>
    if closeupName index ext ∈ existing then nextIdx existing ext (index + 1) fuel
    else index

/-- Fuel sufficient for the loop: a name with more than `maxLen existing`
characters is certainly free, and index `10 ^ maxLen existing` produces
one. -/
def closeupFuel (existing : List String) : Nat := 10 ^ maxLen existing

/-- `next_closeup_name` (lines 84-91): the first `closeup({i}){ext}`
with `i ≥ 1` that is not among the already generated names. -/
def next_closeup_name (existing : List String) (ext : String) : String :=
  closeupName (nextIdx existing ext 1 (closeupFuel existing)) ext

/-- One input image of a rename run: whether
`is_face_visible_mediapipe` accepts it (face detection is an external
capability), and its filename. -/
structure RnItem where
  hasFace : Bool
  filename : String
deriving DecidableEq, Repr

/-- One record of `processing_details`. -/
structure RenDetail where
  original : String
  newName : String
  renamed : Bool
deriving DecidableEq, Repr

/-- The per-image loop of `process_images` (lines 124-174):
a face keeps the original name; otherwise the next closeup name is
generated and added to `existing_names` (kept names are not added). -/
def process_rename (existing : List String) : List RnItem → List RenDetail
  | [] => []
  | it :: rest =>
    if it.hasFace then
      { original := it.filename, newName := it.filename, renamed := false }
        :: process_rename existing rest
    else
      let ext := (splitextStr it.filename).2
      let n := next_closeup_name existing ext
      { original := it.filename, newName := n, renamed := true }
        :: process_rename (n :: existing) rest

/-- A whole run starts with an empty `existing_names` set (line 122). -/
def process_images (items : List RnItem) : List RenDetail :=
  process_rename [] items

/-- The closeup names generated by a run suffix, given the names
generated so far. -/
def genNames (existing : List String) : List RnItem → List String
  | [] => []
  | it :: rest =>
    if it.hasFace then genNames existing rest
    else
      let n := next_closeup_name existing ((splitextStr it.filename).2)
      n :: genNames (n :: existing) rest

/-! ### Concrete instances used by the theorems below -/

/-- A poll tick that cannot satisfy the claims of C4: either a non-200
status or a 200 body lacking the prompt id key. -/
def pollMissing (pid : String) : PollResp → Bool
  | .fail _ => true
  | .ok hist => (lookupA hist pid).isNone

/-- Concrete responses for the C4 witness: one 503 tick, then a 200 tick
whose body holds a different prompt id. -/
def c4Responses : List PollResp :=
  [.fail 503, .ok [("other-prompt", ⟨[("455", ⟨some [⟨"m.png", none, none⟩], false⟩)]⟩)]]

/-- Concrete environment for the C6 witness: one matched pair whose
submission stage fails, so the batch reaches the loop and fails with
zero successes. -/
def envC6 : WfEnv :=
  { bgUpload := some "bg_123.png"
  , prompts := [("product1", ⟨some "a prompt", some "urban"⟩)]
  , styleFiles := ["urban.png"]
  , styleUpload := fun _ => some "urban_123.png"
  , inputFiles := ["a.jpg"]
  , maskFiles := ["a.jpg"]
  , pairEnv := fun _ => ⟨some "a_1.jpg", some "a_2.jpg", none, false⟩ }

/-- Concrete environment for the C7 witness: the background upload
fails. -/
def envC7 : WfEnv :=
  { bgUpload := none
  , prompts := [("product1", ⟨some "a prompt", some "urban"⟩)]
  , styleFiles := ["urban.png"]
  , styleUpload := fun _ => some "urban_123.png"
  , inputFiles := ["a.jpg"]
  , maskFiles := ["a.jpg"]
  , pairEnv := fun _ => ⟨some "a_1.jpg", some "a_2.jpg", some "pid", true⟩ }

/-- Five output images on the resolved node (one more than the variant
cap). -/
def imgs5 : List ImageRef :=
  [⟨"r_00001_.png", some "", some "output"⟩, ⟨"r_00002_.png", some "", some "output"⟩,
   ⟨"r_00003_.png", some "", some "output"⟩, ⟨"r_00004_.png", some "", some "output"⟩,
   ⟨"r_00005_.png", some "", some "output"⟩]

/-- A template holding only the prompt-text node. -/
def wC2 : Workflow := [("448", ⟨[("string", "old text")]⟩)]

/-- The loaded mask template: one store slot holding a graph whose
input node 54 points at an old image. -/
def stC3 : Store := [[("54", ⟨[("image", "old.png")]⟩)]]

/-- The same store after the single-image mask path mutates the loaded
template object in place. -/
def stC3mut : Store := [[("54", ⟨[("image", "new_123.png")]⟩)]]

/-- Five input images of which exactly three have a matching mask. -/
def demoInputs : List String := ["a.jpg", "b.png", "c.jpg", "d.png", "e.png"]

/-- Three masks matching inputs a, c and e by base name. -/
def demoMasks : List String := ["a.jpg", "c.png", "e.jpg"]

/-- The C8 counterexample environment: every batch prerequisite passes,
one input image, no masks. -/
def envC8 : WfEnv :=
  { bgUpload := some "bg_123.png"
  , prompts := [("product1", ⟨some "a prompt", some "urban"⟩)]
  , styleFiles := ["urban.png"]
  , styleUpload := fun _ => some "urban_123.png"
  , inputFiles := ["a.jpg"]
  , maskFiles := []
  , pairEnv := fun _ => ⟨some "i.jpg", some "m.jpg", some "pid", true⟩ }

/-- Outputs whose designated mask node is present with an empty images
list while node "7" has an image. -/
def outsC5 : Outputs :=
  [("455", ⟨some [], false⟩),
   ("7", ⟨some [⟨"mask_00001_.png", some "", some "output"⟩], false⟩)]

/-- Workflow outputs whose designated node "15" is present with an empty
images list while node "7" has an image. -/
def outsC5wf : Outputs :=
  [("15", ⟨some [], false⟩),
   ("7", ⟨some [⟨"img_00001_.png", some "", some "output"⟩], false⟩)]

/-- Outputs lacking the designated node entirely, with one non-empty
node. -/
def outsC5w : Outputs := [("9", ⟨some [⟨"y.png", none, none⟩], false⟩)]

/-- A history in which the job id is present and node "77" holds an
image, but both designated nodes hold empty images lists. -/
def outsC1 : Outputs :=
  [("455", ⟨some [], false⟩), ("15", ⟨some [], false⟩),
   ("77", ⟨some [⟨"img_00001_.png", some "", some "output"⟩], false⟩)]

def histC1 : History := [("prompt-1", ⟨outsC1⟩)]

/-- A ready history: job id present, designated node non-empty. -/
def histC1w : History :=
  [("prompt-2", ⟨[("455", ⟨some [⟨"m.png", none, none⟩], false⟩)]⟩)]

/-! ## Helper lemmas -/

theorem maskReady_of_missing (pid designated : String) (hist : History)
    (h : lookupA hist pid = none) : maskReady pid designated hist = false := by
  unfold maskReady
  rw [h]
  simp

theorem wfReadyBreak_of_missing (pid : String) (hist : History)
    (h : lookupA hist pid = none) : wfReadyBreak pid hist = false := by
  unfold wfReadyBreak
  rw [h]
  rfl

/-! ## C4 -/

/-- C4 (confirmed).  When every poll response is either a transient
non-200 or a 200 body lacking the job id, both polling loops consume the
entire attempt budget (the full configured timeout) and fail with the
timeout outcome; neither fails early on a single missing-key or non-200
poll. -/
theorem c4_poll_until_timeout (pid designated : String) (responses : List PollResp)
    (h : ∀ r ∈ responses, pollMissing pid r = true) :
    maskPollLoop pid designated responses = (none, responses.length) ∧
      wfPollLoop pid responses = (none, responses.length) := by
  induction responses with
  | nil => exact ⟨rfl, rfl⟩
  | cons r rest ih =>
    have hr : pollMissing pid r = true := h r (List.mem_cons_self r rest)
    have hrest : ∀ x ∈ rest, pollMissing pid x = true :=
      fun x hx => h x (List.mem_cons_of_mem r hx)
    have ⟨ihm, ihw⟩ := ih hrest
    constructor
    · cases r with
      | fail s => simp [maskPollLoop, ihm]
      | ok hist =>
        have hmiss : lookupA hist pid = none := by
          have := hr
          simp [pollMissing, Option.isNone_iff_eq_none] at this
          exact this
        simp [maskPollLoop, maskReady_of_missing pid designated hist hmiss, ihm]
    · cases r with
      | fail s => simp [wfPollLoop, ihw]
      | ok hist =>
        have hmiss : lookupA hist pid = none := by
          have := hr
          simp [pollMissing, Option.isNone_iff_eq_none] at this
          exact this
        simp [wfPollLoop, wfReadyBreak_of_missing pid hist hmiss, ihw]

theorem c4_witness :
    (∀ r ∈ c4Responses, pollMissing "prompt-1" r = true) ∧
      maskPollLoop "prompt-1" "455" c4Responses = (none, 2) := by
  exact ⟨by decide, (c4_poll_until_timeout "prompt-1" "455" c4Responses (by decide)).1⟩

/-! ## C6 -/

/-- Zipping a list with `true` flags of its own length filters out
nothing. -/
theorem filterMap_zip_replicate_true (l : List String) :
    ((l.zip (List.replicate l.length true)).filterMap
      (fun x => if x.2 then some x.1 else none)) = l := by
  induction l with
  | nil => rfl
  | cons a t ih => simp [List.replicate_succ, ih]

theorem processPairs_total (stages : List PairEnv) :
    (processPairs stages).1 + (processPairs stages).2 = stages.length := by
  induction stages with
  | nil => rfl
  | cons e rest ih =>
    simp only [processPairs]
    cases h : pairSucceeds e <;> simp <;> omega

/-- C6 (confirmed).  Both aggregates fail exactly when zero of their
items succeeded: the variant-download phase succeeds iff at least one
variant was written, the per-pair loop visits every pair recording each
failure individually (successes + failures = number of pairs), and a
batch that reaches the per-pair loop returns success iff at least one
pair succeeded. -/
theorem c6_zero_success_failure :
    (∀ (p : String) (imgs : List ImageRef) (oracle : List Bool),
      downloadPhaseSuccess p imgs oracle = false ↔ downloadedCount p imgs oracle = 0)
    ∧ (∀ stages : List PairEnv,
        (processPairs stages).1 + (processPairs stages).2 = stages.length)
    ∧ (∀ s : Nat, batchVerdict s = .ok true ↔ 0 < s)
    ∧ (∀ env : WfEnv, 0 < (process_images_api env).pairsAttempted →
        ((process_images_api env).result = .ok true ↔
          0 < (process_images_api env).successes)) := by
  refine ⟨?_, processPairs_total, ?_, ?_⟩
  · intro p imgs oracle
    unfold downloadPhaseSuccess
    constructor
    · intro h
      by_contra hc
      simp at h
      omega
    · intro h
      simp [h]
  · intro s
    unfold batchVerdict
    constructor
    · intro h
      by_contra hc
      simp at hc
      simp [hc] at h
    · intro h
      have : s ≠ 0 := by omega
      simp [this]
  · intro env
    unfold process_images_api
    dsimp only
    split
    · intro h; simp at h
    · split
      · intro h; simp at h
      · split
        · intro h; simp at h
        · split
          · intro h; simp at h
          · split
            · intro h; simp at h
            · intro _
              dsimp only
              unfold batchVerdict
              by_cases hz : (processPairs (List.map env.pairEnv
                  (List.range (matching_pairs env.inputFiles env.maskFiles).length))).1 = 0
              · simp [hz]
              · simp [hz]
                omega

theorem c6_witness :
    (0 < (process_images_api envC6).pairsAttempted) ∧
      ((process_images_api envC6).result = .ok true ↔
        0 < (process_images_api envC6).successes) := by
  exact ⟨by decide, c6_zero_success_failure.2.2.2 envC6 (by decide)⟩

/-! ## C7 -/

/-- C7 (confirmed).  If the background upload fails, or some required
style name has no matching file, or uploading some matched style fails,
the whole batch raises before any pair is processed: the result is an
error and no per-pair stage is entered. -/
theorem c7_all_or_nothing_setup (env : WfEnv)
    (h : env.bgUpload = none
      ∨ (∃ s ∈ get_required_style_images env.prompts,
          lookupA (find_style_file_matches (get_required_style_images env.prompts)
            env.styleFiles) s = none)
      ∨ (∃ p ∈ find_style_file_matches (get_required_style_images env.prompts)
            env.styleFiles, env.styleUpload p.2 = none)) :
    (∃ e, (process_images_api env).result = Except.error e)
      ∧ (process_images_api env).pairsAttempted = 0
      ∧ (process_images_api env).successes = 0
      ∧ (process_images_api env).failures = 0 := by
  unfold process_images_api
  dsimp only
  split
  · exact ⟨⟨_, rfl⟩, rfl, rfl, rfl⟩
  · next bg hbg =>
    split
    · exact ⟨⟨_, rfl⟩, rfl, rfl, rfl⟩
    · split
      · exact ⟨⟨_, rfl⟩, rfl, rfl, rfl⟩
      · next hmissing =>
        split
        · exact ⟨⟨_, rfl⟩, rfl, rfl, rfl⟩
        · next hupload =>
          exfalso
          rcases h with h | h | h
          · rw [hbg] at h; cases h
          · rcases h with ⟨s, hs, hnone⟩
            simp only [Bool.not_eq_true', Bool.not_eq_false] at hmissing
            rw [List.isEmpty_iff] at hmissing
            have : s ∈ (get_required_style_images env.prompts).filter
                (fun s => (lookupA (find_style_file_matches
                  (get_required_style_images env.prompts) env.styleFiles) s).isNone) := by
              rw [List.mem_filter]
              exact ⟨hs, by simp [hnone]⟩
            rw [hmissing] at this
            cases this
          · rcases h with ⟨q, hq, hnone⟩
            simp only [Bool.not_eq_true', Bool.not_eq_false] at hupload
            rw [List.isEmpty_iff] at hupload
            have : q ∈ (find_style_file_matches (get_required_style_images env.prompts)
                env.styleFiles).filter (fun p => (env.styleUpload p.2).isNone) := by
              rw [List.mem_filter]
              exact ⟨hq, by simp [hnone]⟩
            rw [hupload] at this
            cases this

theorem c7_witness :
    envC7.bgUpload = none ∧ (process_images_api envC7).pairsAttempted = 0 := by
  exact ⟨rfl, (c7_all_or_nothing_setup envC7 (Or.inl rfl)).2.1⟩

/-! ## C9 -/

/-- C9 (confirmed).  The downloader attempts `min(k, 4)` destinations in
list order; index 0 is the caller-supplied path verbatim and index
`n ≥ 1` is `{base}_variant_{n+1}{ext}` alongside it; with every fetch
succeeding the written files are exactly the attempted ones, so five
exposed images yield `{base}` and variants 2, 3, 4; the masking path
fetches exactly the first image of the resolved node. -/
theorem c9_variant_naming :
    (∀ (p : String) (imgs : List ImageRef),
      (variantPathsAll p imgs).length = min imgs.length 4)
    ∧ (∀ (p : String) (imgs : List ImageRef) (n : Nat),
        n < (variantPathsAll p imgs).length →
        (variantPathsAll p imgs).getD n "" =
          if n = 0 then p
          else joinPath (dirnameStr p)
            ((splitextStr (basenameStr p)).1 ++ "_variant_" ++ decStr (n + 1)
              ++ (splitextStr p).2))
    ∧ (∀ (p : String) (imgs : List ImageRef),
        writtenPaths p imgs (List.replicate (min imgs.length 4) true)
          = variantPathsAll p imgs)
    ∧ (writtenPaths "out/res.png" imgs5 (List.replicate 4 true)
        = ["out/res.png", "out/res_variant_2.png", "out/res_variant_3.png",
           "out/res_variant_4.png"])
    ∧ (∀ (designated : String) (outputs : Outputs) (n : NodeOut) (i : ImageRef)
        (rest : List ImageRef), maskResolve designated outputs = some n →
        n.images? = some (i :: rest) →
        fetch_first_image designated outputs = .ok i) := by
  have hlen : ∀ (p : String) (imgs : List ImageRef),
      (variantPathsAll p imgs).length = min imgs.length 4 := by
    intro p imgs
    simp [variantPathsAll, Nat.min_comm]
  refine ⟨hlen, ?_, ?_, by decide, ?_⟩
  · intro p imgs n hn
    have hn4 : n < (List.range (imgs.take 4).length).length := by
      simpa [variantPathsAll] using hn
    have : (variantPathsAll p imgs).getD n "" = variant_path p n := by
      unfold variantPathsAll
      rw [List.getD_eq_getElem?_getD, List.getElem?_map]
      rw [List.getElem?_range (by simpa using hn4)]
      rfl
    rw [this]
    rfl
  · intro p imgs
    rw [← hlen p imgs]
    exact filterMap_zip_replicate_true (variantPathsAll p imgs)
  · intro designated outputs n i rest h1 h2
    simp [fetch_first_image, h1, h2]

theorem c9_witness :
    (1 < (variantPathsAll "out/res.png" imgs5).length) ∧
      (variantPathsAll "out/res.png" imgs5).getD 1 "" =
        (if (1 : Nat) = 0 then "out/res.png"
         else joinPath (dirnameStr "out/res.png")
          ((splitextStr (basenameStr "out/res.png")).1 ++ "_variant_" ++ decStr (1 + 1)
            ++ (splitextStr "out/res.png").2)) := by
  exact ⟨by decide, c9_variant_naming.2.1 "out/res.png" imgs5 1 (by decide)⟩

/-! ## C2 -/

theorem lookupA_nil {α : Type} (k : String) : lookupA ([] : List (String × α)) k = none :=
  rfl

theorem lookupA_cons {α : Type} (p : String × α) (t : List (String × α)) (k : String) :
    lookupA (p :: t) k = if p.1 = k then some p.2 else lookupA t k := by
  by_cases h : p.1 = k
  · simp [lookupA, List.find?, h]
  · have hb : (p.1 == k) = false := by simpa using h
    simp [lookupA, List.find?, hb, h]

theorem assocSet_cons {α : Type} (p : String × α) (t : List (String × α)) (k : String)
    (v : α) :
    assocSet (p :: t) k v = if p.1 = k then (k, v) :: t else p :: assocSet t k v := by
  by_cases h : p.1 = k
  · have hb : (p.1 == k) = true := by simpa using h
    simp [assocSet, hb, h]
  · have hb : (p.1 == k) = false := by simpa using h
    simp [assocSet, hb, h]

theorem lookupA_assocSet_self {α : Type} (l : List (String × α)) (k : String) (v : α) :
    lookupA (assocSet l k v) k = some v := by
  induction l with
  | nil => simp [assocSet, lookupA_cons]
  | cons p t ih =>
    rw [assocSet_cons]
    by_cases h : p.1 = k
    · simp [h, lookupA_cons]
    · simp [h, lookupA_cons, ih]

theorem lookupA_assocSet_ne {α : Type} (l : List (String × α)) (k k2 : String) (v : α)
    (h : k2 ≠ k) : lookupA (assocSet l k v) k2 = lookupA l k2 := by
  have hk : k ≠ k2 := fun e => h e.symm
  induction l with
  | nil => simp [assocSet, lookupA_cons, hk, lookupA_nil]
  | cons p t ih =>
    rw [assocSet_cons, lookupA_cons]
    by_cases hp : p.1 = k
    · have hp2 : p.1 ≠ k2 := by rw [hp]; exact hk
      rw [if_pos hp, lookupA_cons, if_neg hk, if_neg hp2]
    · rw [if_neg hp, lookupA_cons]
      by_cases hq : p.1 = k2
      · rw [if_pos hq, if_pos hq]
      · rw [if_neg hq, if_neg hq, ih]

theorem lookupA_setInput_none (w : Workflow) (nid key v nid2 : String)
    (h : lookupA w nid2 = none) : lookupA (setInput w nid key v) nid2 = none := by
  unfold setInput
  cases hl : lookupA w nid with
  | none => exact h
  | some node =>
    have hne : nid2 ≠ nid := by
      intro e
      rw [e, hl] at h
      cases h
    rw [lookupA_assocSet_ne _ _ _ _ hne]
    exact h

theorem lookupA_setInput_other (w : Workflow) (nid key v nid2 : String)
    (h : nid2 ≠ nid) : lookupA (setInput w nid key v) nid2 = lookupA w nid2 := by
  unfold setInput
  cases hl : lookupA w nid with
  | none => rfl
  | some node => exact lookupA_assocSet_ne _ _ _ _ h

theorem lookupA_setInput_self (w : Workflow) (nid key v : String) :
    lookupA (setInput w nid key v) nid =
      (lookupA w nid).map (fun n => { n with inputs := assocSet n.inputs key v }) := by
  unfold setInput
  cases hl : lookupA w nid with
  | none => simpa using hl
  | some node => rw [lookupA_assocSet_self]; rfl

/-- C2 (corrected).  For `update_workflow`, a node identifier absent from
the copy is a silent no-op: the call never fails, the identifier is not
introduced, and each of the five designated assignments lands whenever
its node is present, independently of the others.  The masking path's
mutator, by contrast, raises an error when its input node id is absent
instead of skipping it (and mutates the node when present). -/
theorem c2_absent_node_noop :
    (∀ (w : Workflow) (a b c d : String) (pd : List (String × String)) (nid : String),
      lookupA w nid = none → lookupA (update_workflow w a b c d pd) nid = none)
    ∧ (∀ (w : Workflow) (a b c d : String) (pd : List (String × String)),
        lookupA (update_workflow w a b c d pd) "454"
          = (lookupA w "454").map (fun n => { n with inputs := assocSet n.inputs "image" a })
        ∧ lookupA (update_workflow w a b c d pd) "439"
          = (lookupA w "439").map (fun n => { n with inputs := assocSet n.inputs "image" b })
        ∧ lookupA (update_workflow w a b c d pd) "256"
          = (lookupA w "256").map (fun n => { n with inputs := assocSet n.inputs "image" c })
        ∧ lookupA (update_workflow w a b c d pd) "110"
          = (lookupA w "110").map (fun n => { n with inputs := assocSet n.inputs "image" d })
        ∧ lookupA (update_workflow w a b c d pd) "448"
          = (lookupA w "448").map (fun n =>
              { n with inputs := (assocSet n.inputs "string"
                  ((lookupA pd "text").getD
                    "Generate a scene with the provided image and style")) }))
    ∧ (∀ (g : Workflow) (name : String), lookupA g INPUT_NODE_ID = none →
        mask_set_input g name = .error "Input node 54 not found in workflow JSON")
    ∧ (∀ (g : Workflow) (name : String) (node : WfNode),
        lookupA g INPUT_NODE_ID = some node →
        mask_set_input g name = .ok (assocSet g INPUT_NODE_ID
          { node with inputs := assocSet node.inputs "image" name })) := by
  refine ⟨?_, ?_, ?_, ?_⟩
  · intro w a b c d pd nid h
    unfold update_workflow
    exact lookupA_setInput_none _ _ _ _ _ (lookupA_setInput_none _ _ _ _ _
      (lookupA_setInput_none _ _ _ _ _ (lookupA_setInput_none _ _ _ _ _
        (lookupA_setInput_none _ _ _ _ _ h))))
  · intro w a b c d pd
    unfold update_workflow
    refine ⟨?_, ?_, ?_, ?_, ?_⟩
    · rw [lookupA_setInput_other _ _ _ _ _ (by decide),
        lookupA_setInput_other _ _ _ _ _ (by decide),
        lookupA_setInput_other _ _ _ _ _ (by decide),
        lookupA_setInput_other _ _ _ _ _ (by decide),
        lookupA_setInput_self]
    · rw [lookupA_setInput_other _ _ _ _ _ (by decide),
        lookupA_setInput_other _ _ _ _ _ (by decide),
        lookupA_setInput_other _ _ _ _ _ (by decide),
        lookupA_setInput_self,
        lookupA_setInput_other _ _ _ _ _ (by decide)]
    · rw [lookupA_setInput_other _ _ _ _ _ (by decide),
        lookupA_setInput_other _ _ _ _ _ (by decide),
        lookupA_setInput_self,
        lookupA_setInput_other _ _ _ _ _ (by decide),
        lookupA_setInput_other _ _ _ _ _ (by decide)]
    · rw [lookupA_setInput_other _ _ _ _ _ (by decide),
        lookupA_setInput_self,
        lookupA_setInput_other _ _ _ _ _ (by decide),
        lookupA_setInput_other _ _ _ _ _ (by decide),
        lookupA_setInput_other _ _ _ _ _ (by decide)]
    · rw [lookupA_setInput_self,
        lookupA_setInput_other _ _ _ _ _ (by decide),
        lookupA_setInput_other _ _ _ _ _ (by decide),
        lookupA_setInput_other _ _ _ _ _ (by decide),
        lookupA_setInput_other _ _ _ _ _ (by decide)]
  · intro g name h
    unfold mask_set_input
    rw [h]
  · intro g name node h
    unfold mask_set_input
    rw [h]

/-- C2 counterexample to the claim as stated: the masking mutator is
called on a graph lacking its referenced input node id and the call
fails instead of being a no-op. -/
theorem c2_counterexample :
    lookupA ([] : Workflow) INPUT_NODE_ID = none ∧
      mask_set_input ([] : Workflow) "img_001.png"
        = .error "Input node 54 not found in workflow JSON" :=
  ⟨rfl, rfl⟩

theorem c2_witness :
    lookupA wC2 "454" = none ∧
      lookupA (update_workflow wC2 "in.png" "mask.png" "bg.png" "st.png" []) "454"
        = none := by
  exact ⟨by decide, c2_absent_node_noop.1 wC2 "in.png" "mask.png" "bg.png" "st.png" []
    "454" (by decide)⟩

/-! ## C3 -/

theorem readRef_writeRef_ne (st : Store) (i j : Nat) (w : Workflow) (h : j ≠ i) :
    readRef (writeRef st i w) j = readRef st j := by
  unfold readRef writeRef
  rw [List.getD_eq_getElem?_getD, List.getD_eq_getElem?_getD,
    List.getElem?_set_ne (Ne.symm h)]

theorem readRef_append_lt (st : Store) (x : Workflow) (r : Nat) (h : r < st.length) :
    readRef (st ++ [x]) r = readRef st r := by
  unfold readRef
  rw [List.getD_eq_getElem?_getD, List.getD_eq_getElem?_getD,
    List.getElem?_append_left h]

/-- C3 (amended; see the counterexample).  `update_workflow` deep-copies
its argument and every assignment targets the copy, so the template
object is unchanged by the call; the mask pipeline's ZIP branch likewise
deep-copies the loaded template per image before mutating, leaving the
template object unchanged. -/
theorem c3_template_isolation :
    (∀ (st : Store) (r : Nat) (a b c d : String) (pd : List (String × String)),
      r < st.length →
      readRef (update_workflow_call st r a b c d pd).1 r = readRef st r)
    ∧ (∀ (st : Store) (r : Nat) (name : String) (st2 : Store) (cref : Nat),
        r < st.length → mask_zip_step st r name = .ok (st2, cref) →
        readRef st2 r = readRef st r) := by
  constructor
  · intro st r a b c d pd hr
    unfold update_workflow_call deepcopyRef
    dsimp only
    rw [readRef_writeRef_ne _ _ _ _ (by omega)]
    exact readRef_append_lt st _ r hr
  · intro st r name st2 cref hr hok
    unfold mask_zip_step deepcopyRef at hok
    dsimp only at hok
    unfold mask_set_input_call at hok
    cases hm : mask_set_input (readRef (st ++ [readRef st r]) st.length) name with
    | error e => rw [hm] at hok; cases hok
    | ok w =>
      rw [hm] at hok
      cases hok
      rw [readRef_writeRef_ne _ _ _ _ (by omega)]
      exact readRef_append_lt st _ r hr

/-- C3 counterexample to the claim as stated: the single-image branch of
`process_image` passes the loaded template object itself to
`_process_single_image`, whose mutation step updates it in place — after
the call the template is not byte-identical. -/
theorem c3_counterexample :
    mask_set_input_call stC3 0 "new_123.png" = .ok stC3mut ∧
      readRef stC3mut 0 ≠ readRef stC3 0 :=
  ⟨rfl, by decide⟩

theorem c3_witness :
    (0 < stC3.length) ∧
      readRef (update_workflow_call stC3 0 "i.png" "m.png" "b.png" "s.png" []).1 0
        = readRef stC3 0 := by
  exact ⟨by decide,
    c3_template_isolation.1 stC3 0 "i.png" "m.png" "b.png" "s.png" [] (by decide)⟩

/-! ## C8 -/

theorem length_filterMap_add_filter {α β : Type} (f : α → Option β) (p : α → Bool)
    (hfp : ∀ a, (f a).isSome = p a) :
    ∀ l : List α, (l.filterMap f).length + (l.filter (fun a => !p a)).length = l.length := by
  intro l
  induction l with
  | nil => rfl
  | cons a t ih =>
    cases hfa : f a with
    | none =>
      have hp : p a = false := by rw [← hfp a, hfa]; rfl
      simp [List.filterMap_cons, hfa, List.filter_cons, hp]
      omega
    | some b =>
      have hp : p a = true := by rw [← hfp a, hfa]; rfl
      simp [List.filterMap_cons, hfa, List.filter_cons, hp]
      omega

/-- C8 (amended; see the counterexample).  An input image is paired with
a mask exactly when a mask named `{base}.jpg` or `{base}.png` is in the
(extension-filtered) mask listing, `.jpg` tried first; pairs plus
skipped inputs partition the input listing; and five inputs with three
matching masks produce exactly three pairs and two skipped entries. -/
theorem c8_pairing_rule :
    (∀ (inputs masks : List String) (img : String),
      img ∈ inputs.filter imageExt →
        ((∃ m, (img, m) ∈ matching_pairs inputs masks) ↔
          ((splitextStr img).1 ++ ".jpg" ∈ masks.filter imageExt
            ∨ (splitextStr img).1 ++ ".png" ∈ masks.filter imageExt)))
    ∧ (∀ (inputs masks : List String) (img m : String),
        (img, m) ∈ matching_pairs inputs masks →
          m = (if (splitextStr img).1 ++ ".jpg" ∈ masks.filter imageExt
            then (splitextStr img).1 ++ ".jpg" else (splitextStr img).1 ++ ".png"))
    ∧ (∀ (inputs masks : List String),
        (matching_pairs inputs masks).length + (skippedInputs inputs masks).length
          = (inputs.filter imageExt).length)
    ∧ matching_pairs demoInputs demoMasks
        = [("a.jpg", "a.jpg"), ("c.jpg", "c.png"), ("e.png", "e.jpg")]
    ∧ skippedInputs demoInputs demoMasks = ["b.png", "d.png"] := by
  refine ⟨?_, ?_, ?_, by decide, by decide⟩
  · intro inputs masks img himg
    unfold matching_pairs
    constructor
    · rintro ⟨m, hm⟩
      rw [List.mem_filterMap] at hm
      rcases hm with ⟨a, _, hfa⟩
      by_cases hc : ((splitextStr a).1 ++ ".jpg" ∈ masks.filter imageExt
          ∨ (splitextStr a).1 ++ ".png" ∈ masks.filter imageExt)
      · rw [if_pos (by simpa [decide_eq_true_eq] using hc)] at hfa
        simp only [Option.some.injEq, Prod.mk.injEq] at hfa
        obtain ⟨h1, _⟩ := hfa
        subst h1
        exact hc
      · rw [if_neg (by simpa [decide_eq_true_eq] using hc)] at hfa
        cases hfa
    · intro hc
      refine ⟨if (splitextStr img).1 ++ ".jpg" ∈ masks.filter imageExt
          then (splitextStr img).1 ++ ".jpg" else (splitextStr img).1 ++ ".png", ?_⟩
      rw [List.mem_filterMap]
      refine ⟨img, himg, ?_⟩
      rw [if_pos (by simpa [decide_eq_true_eq] using hc)]
  · intro inputs masks img m hm
    unfold matching_pairs at hm
    rw [List.mem_filterMap] at hm
    rcases hm with ⟨a, _, hfa⟩
    by_cases hc : ((splitextStr a).1 ++ ".jpg" ∈ masks.filter imageExt
        ∨ (splitextStr a).1 ++ ".png" ∈ masks.filter imageExt)
    · rw [if_pos (by simpa [decide_eq_true_eq] using hc)] at hfa
      cases hfa
      rfl
    · rw [if_neg (by simpa [decide_eq_true_eq] using hc)] at hfa
      cases hfa
  · intro inputs masks
    unfold matching_pairs skippedInputs
    exact length_filterMap_add_filter _ _ (fun a => by
      by_cases hc : ((splitextStr a).1 ++ ".jpg" ∈ masks.filter imageExt
          ∨ (splitextStr a).1 ++ ".png" ∈ masks.filter imageExt)
      · rw [if_pos (by simpa [decide_eq_true_eq] using hc)]
        rcases hc with h | h
        · rw [decide_eq_true h]
          rfl
        · rw [decide_eq_true h, Bool.or_true]
          rfl
      · rw [if_neg (by simpa [decide_eq_true_eq] using hc)]
        push_neg at hc
        rw [decide_eq_false hc.1, decide_eq_false hc.2]
        rfl) _

/-- C8 counterexample to the claim as stated: a run in which every input
is unmatched does abort the batch — `process_images_api` raises "No
matching image-mask pairs found" instead of merely skipping. -/
theorem c8_counterexample :
    skippedInputs envC8.inputFiles envC8.maskFiles = ["a.jpg"] ∧
      (process_images_api envC8).result
        = Except.error "No matching image-mask pairs found" := by
  constructor
  · decide
  · rfl

theorem c8_witness :
    ("a.jpg" ∈ demoInputs.filter imageExt) ∧
      ((∃ m, ("a.jpg", m) ∈ matching_pairs demoInputs demoMasks) ↔
        ((splitextStr "a.jpg").1 ++ ".jpg" ∈ demoMasks.filter imageExt
          ∨ (splitextStr "a.jpg").1 ++ ".png" ∈ demoMasks.filter imageExt)) := by
  exact ⟨by decide, c8_pairing_rule.1 demoInputs demoMasks "a.jpg" (by decide)⟩

/-! ## C5 -/

theorem firstWithImages_spec (outs : Outputs) (n : NodeOut)
    (h : firstWithImages outs = some n) :
    ∃ (l1 : Outputs) (nid : String) (l2 : Outputs),
      outs = l1 ++ (nid, n) :: l2 ∧ nodeImagesTruthy n = true ∧
        ∀ q ∈ l1, nodeImagesTruthy q.2 = false := by
  induction outs with
  | nil => cases h
  | cons p t ih =>
    by_cases hp : nodeImagesTruthy p.2 = true
    · have : firstWithImages (p :: t) = some p.2 := by
        simp [firstWithImages, List.find?, hp]
      rw [this] at h
      cases h
      exact ⟨[], p.1, t, by simp, hp, by simp⟩
    · have hpf : nodeImagesTruthy p.2 = false := by
        cases hb : nodeImagesTruthy p.2
        · rfl
        · exact absurd hb hp
      have hstep : firstWithImages (p :: t) = firstWithImages t := by
        simp [firstWithImages, List.find?, hpf]
      rw [hstep] at h
      rcases ih h with ⟨l1, nid, l2, he, hn, hall⟩
      refine ⟨p :: l1, nid, l2, by simp [he], hn, ?_⟩
      intro q hq
      rcases List.mem_cons.mp hq with rfl | hq2
      · exact hpf
      · exact hall q hq2

theorem firstWithImages_exists (outs : Outputs)
    (h : ∃ q ∈ outs, nodeImagesTruthy q.2 = true) :
    ∃ n, firstWithImages outs = some n ∧ nodeImagesTruthy n = true := by
  induction outs with
  | nil => rcases h with ⟨q, hq, _⟩; cases hq
  | cons p t ih =>
    by_cases hp : nodeImagesTruthy p.2 = true
    · exact ⟨p.2, by simp [firstWithImages, List.find?, hp], hp⟩
    · have hpf : nodeImagesTruthy p.2 = false := by
        cases hb : nodeImagesTruthy p.2
        · rfl
        · exact absurd hb hp
      have hstep : firstWithImages (p :: t) = firstWithImages t := by
        simp [firstWithImages, List.find?, hpf]
      rcases h with ⟨q, hq, hqt⟩
      rcases List.mem_cons.mp hq with rfl | hq2
      · exact absurd hqt hp
      · rw [hstep]
        exact ih ⟨q, hq2, hqt⟩

theorem firstWithImages_some_truthy (outs : Outputs) (n : NodeOut)
    (h : firstWithImages outs = some n) : nodeImagesTruthy n = true := by
  rcases firstWithImages_spec outs n h with ⟨_, _, _, _, hn, _⟩
  exact hn

theorem nodeImagesTruthy_head (n : NodeOut) (h : nodeImagesTruthy n = true) :
    ∃ i rest, n.images? = some (i :: rest) := by
  unfold nodeImagesTruthy at h
  cases hi : n.images? with
  | none => rw [hi] at h; cases h
  | some l =>
    cases l with
    | nil => rw [hi] at h; simp at h
    | cons i rest => exact ⟨i, rest, rfl⟩

theorem nodeImagesTruthy_imagesOf (n : NodeOut) (h : nodeImagesTruthy n = true) :
    imagesOf n ≠ [] := by
  rcases nodeImagesTruthy_head n h with ⟨i, rest, hi⟩
  simp [imagesOf, hi]

theorem maskResolve_fallback (designated : String) (outs : Outputs)
    (h : truthyOpt (lookupA outs designated) = false) :
    maskResolve designated outs = firstWithImages outs := by
  unfold maskResolve
  dsimp only
  rw [h]
  simp

theorem maskResolve_keep (designated : String) (outs : Outputs) (n : NodeOut)
    (h : lookupA outs designated = some n) (ht : truthyNode n = true) :
    maskResolve designated outs = some n := by
  unfold maskResolve
  dsimp only
  rw [h]
  simp [truthyOpt, ht]

/-- C5 (amended; see the counterexample).  The fallback to the first
node with a non-empty images list fires exactly when the designated node
is absent or falsy as a dict (mask path) or absent, falsy, or lacking an
`images` key (workflow path); the fallback really is the first such node
and really is selected rather than failing; but a designated node that
is present and truthy with an empty images list is kept, so the call
fails even when another node has images. -/
theorem c5_fallback_rule :
    (∀ (designated : String) (outs : Outputs),
      truthyOpt (lookupA outs designated) = false →
        maskResolve designated outs = firstWithImages outs)
    ∧ (∀ (designated : String) (outs : Outputs) (n : NodeOut),
        lookupA outs designated = some n → truthyNode n = true →
        maskResolve designated outs = some n)
    ∧ (∀ (outs : Outputs) (n : NodeOut), firstWithImages outs = some n →
        ∃ (l1 : Outputs) (nid : String) (l2 : Outputs),
          outs = l1 ++ (nid, n) :: l2 ∧ nodeImagesTruthy n = true ∧
            ∀ q ∈ l1, nodeImagesTruthy q.2 = false)
    ∧ (∀ (designated : String) (outs : Outputs),
        truthyOpt (lookupA outs designated) = false →
        (∃ q ∈ outs, nodeImagesTruthy q.2 = true) →
        ∃ i, fetch_first_image designated outs = .ok i)
    ∧ (∀ (designated : String) (outs : Outputs) (n : NodeOut),
        lookupA outs designated = some n → truthyNode n = true →
        nodeImagesTruthy n = false →
        fetch_first_image designated outs = .error "No output images found")
    ∧ (∀ (outs : Outputs) (n : NodeOut),
        lookupA outs "15" = some n → n.images? = some [] →
        wfResolve outs = some [])
    ∧ (∀ (outs : Outputs),
        (truthyNode ((lookupA outs "15").getD emptyNode) = false
          ∨ ((lookupA outs "15").getD emptyNode).images? = none) →
        wfResolve outs = (firstWithImages outs).map imagesOf) := by
  refine ⟨maskResolve_fallback, maskResolve_keep, firstWithImages_spec, ?_, ?_, ?_, ?_⟩
  · intro designated outs h hex
    rcases firstWithImages_exists outs hex with ⟨n, hn, hnt⟩
    rcases nodeImagesTruthy_head n hnt with ⟨i, rest, hi⟩
    refine ⟨i, ?_⟩
    unfold fetch_first_image
    rw [maskResolve_fallback designated outs h, hn]
    simp [hi]
  · intro designated outs n h ht hf
    unfold fetch_first_image
    rw [maskResolve_keep designated outs n h ht]
    unfold nodeImagesTruthy at hf
    cases hi : n.images? with
    | none => simp [hi]
    | some l =>
      cases l with
      | nil => simp [hi]
      | cons i rest => rw [hi] at hf; simp at hf
  · intro outs n h hi
    unfold wfResolve
    rw [h]
    have ht : truthyNode n = true := by simp [truthyNode, hi]
    simp [ht, hi, imagesOf]
  · intro outs h
    unfold wfResolve
    have hc : (!truthyNode ((lookupA outs "15").getD emptyNode)
        || ((lookupA outs "15").getD emptyNode).images?.isNone) = true := by
      rcases h with h | h
      · rw [h]; rfl
      · rw [h]; simp
    rw [if_pos hc]
    cases hf : firstWithImages outs with
    | none => rfl
    | some v => rfl

/-- C5 counterexample to the claim as stated: with the designated node
present but holding an empty images collection and another node holding
a non-empty one, the mask resolver fails instead of selecting the
fallback, and the workflow resolver keeps the empty designated node so
the download phase fails. -/
theorem c5_counterexample :
    lookupA outsC5 "455" = some ⟨some [], false⟩ ∧
      (∃ q ∈ outsC5, nodeImagesTruthy q.2 = true) ∧
      fetch_first_image "455" outsC5 = .error "No output images found" ∧
      wfResolve outsC5wf = some [] ∧
      wfHistDecision "prompt-9" [("prompt-9", ⟨outsC5wf⟩)] = false := by
  refine ⟨rfl, ⟨("7", ⟨some [⟨"mask_00001_.png", some "", some "output"⟩], false⟩),
    by decide, by decide⟩, rfl, rfl, rfl⟩

theorem c5_witness :
    truthyOpt (lookupA outsC5w "455") = false ∧
      ∃ i, fetch_first_image "455" outsC5w = .ok i := by
  exact ⟨by decide, c5_fallback_rule.2.2.2.1 "455" outsC5w (by decide)
    ⟨("9", ⟨some [⟨"y.png", none, none⟩], false⟩), by decide, by decide⟩⟩

/-! ## C1 -/

theorem lookupA_mem {α : Type} (l : List (String × α)) (k : String) (v : α)
    (h : lookupA l k = some v) : ∃ k2, (k2, v) ∈ l := by
  unfold lookupA at h
  cases hf : l.find? (fun p => p.1 == k) with
  | none => rw [hf] at h; cases h
  | some p =>
    rw [hf] at h
    simp at h
    refine ⟨p.1, ?_⟩
    have hm := List.mem_of_find?_eq_some hf
    rw [← h]
    simpa using hm

theorem lookupA_ne_nil {α : Type} (l : List (String × α)) (k : String) (v : α)
    (h : lookupA l k = some v) : l ≠ [] := by
  intro he
  rw [he] at h
  cases h

/-- The per-history mask readiness, characterised in terms of the raw
outputs mapping. -/
theorem maskSelected_iff (designated : String) (outs : Outputs) :
    (∃ n, maskResolve designated outs = some n ∧ nodeImagesTruthy n = true) ↔
      ((∃ n, lookupA outs designated = some n ∧ truthyNode n = true
          ∧ nodeImagesTruthy n = true)
        ∨ (truthyOpt (lookupA outs designated) = false
          ∧ ∃ q ∈ outs, nodeImagesTruthy q.2 = true)) := by
  by_cases ht : truthyOpt (lookupA outs designated) = true
  · rcases hl : lookupA outs designated with _ | m
    · rw [hl] at ht
      simp [truthyOpt] at ht
    · have htm : truthyNode m = true := by rw [hl] at ht; exact ht
      constructor
      · rintro ⟨n, hres, hn⟩
        rw [maskResolve_keep designated outs m hl htm] at hres
        rcases Option.some_inj.mp hres with rfl
        exact Or.inl ⟨m, rfl, htm, hn⟩
      · rintro (⟨n, hl2, _, hin⟩ | ⟨hfal, _⟩)
        · rcases Option.some_inj.mp hl2 with rfl
          exact ⟨m, maskResolve_keep designated outs m hl htm, hin⟩
        · have hf2 : truthyNode m = false := hfal
          rw [hf2] at htm
          cases htm
  · have hfal : truthyOpt (lookupA outs designated) = false := by
      cases hb : truthyOpt (lookupA outs designated)
      · rfl
      · exact absurd hb ht
    constructor
    · rintro ⟨n, hres, hn⟩
      rw [maskResolve_fallback designated outs hfal] at hres
      rcases firstWithImages_spec outs n hres with ⟨l1, nid, l2, he, hnt, _⟩
      exact Or.inr ⟨hfal, ⟨(nid, n), by rw [he]; simp, hnt⟩⟩
    · rintro (⟨n, hl2, htn, _⟩ | ⟨_, hex⟩)
      · rw [hl2] at hfal
        rw [show truthyOpt (some n) = truthyNode n from rfl, htn] at hfal
        cases hfal
      · rcases firstWithImages_exists outs hex with ⟨n, hfi, hnt⟩
        exact ⟨n, by rw [maskResolve_fallback designated outs hfal]; exact hfi, hnt⟩

/-- The two branches of the workflow resolver as one equation. -/
theorem wfResolve_cases (outs : Outputs) :
    wfResolve outs = (if (!truthyNode ((lookupA outs "15").getD emptyNode)
        || ((lookupA outs "15").getD emptyNode).images?.isNone) = true
      then (firstWithImages outs).map imagesOf
      else some (imagesOf ((lookupA outs "15").getD emptyNode))) := by
  unfold wfResolve
  dsimp only
  split
  · cases hf : firstWithImages outs <;> simp [hf]
  · rfl

/-- The workflow resolver's selected-images non-emptiness, characterised
in terms of the raw outputs mapping. -/
theorem wfSelected_iff (outs : Outputs) :
    (∃ l, wfResolve outs = some l ∧ l ≠ []) ↔
      ((truthyNode ((lookupA outs "15").getD emptyNode) = true
          ∧ ((lookupA outs "15").getD emptyNode).images?.isSome = true
          ∧ imagesOf ((lookupA outs "15").getD emptyNode) ≠ [])
        ∨ ((truthyNode ((lookupA outs "15").getD emptyNode) = false
            ∨ ((lookupA outs "15").getD emptyNode).images? = none)
          ∧ ∃ q ∈ outs, nodeImagesTruthy q.2 = true)) := by
  by_cases hc : (!truthyNode ((lookupA outs "15").getD emptyNode)
      || ((lookupA outs "15").getD emptyNode).images?.isNone) = true
  · have hres : wfResolve outs = (firstWithImages outs).map imagesOf := by
      rw [wfResolve_cases, if_pos hc]
    have hcp : truthyNode ((lookupA outs "15").getD emptyNode) = false
        ∨ ((lookupA outs "15").getD emptyNode).images? = none := by
      rcases Bool.or_eq_true_iff.mp hc with h | h
      · exact Or.inl (by simpa using h)
      · exact Or.inr (by simpa [Option.isNone_iff_eq_none] using h)
    constructor
    · rintro ⟨l, hl, hne⟩
      rw [hres] at hl
      cases hf : firstWithImages outs with
      | none => rw [hf] at hl; cases hl
      | some v =>
        refine Or.inr ⟨hcp, ?_⟩
        rcases firstWithImages_spec outs v hf with ⟨l1, nid, l2, he, hnt, _⟩
        exact ⟨(nid, v), by rw [he]; simp, hnt⟩
    · rintro (⟨h1, h2, _⟩ | ⟨_, hex⟩)
      · rcases hcp with h3 | h3
        · rw [h1] at h3; cases h3
        · rw [h3] at h2; simp at h2
      · rcases firstWithImages_exists outs hex with ⟨v, hfi, hvt⟩
        exact ⟨imagesOf v, by rw [hres, hfi]; rfl, nodeImagesTruthy_imagesOf v hvt⟩
  · have hcf : (!truthyNode ((lookupA outs "15").getD emptyNode)
        || ((lookupA outs "15").getD emptyNode).images?.isNone) = false := by
      cases hb : (!truthyNode ((lookupA outs "15").getD emptyNode)
          || ((lookupA outs "15").getD emptyNode).images?.isNone)
      · rfl
      · exact absurd hb hc
    have h1 : truthyNode ((lookupA outs "15").getD emptyNode) = true := by
      rcases Bool.or_eq_false_iff.mp hcf with ⟨ha, _⟩
      simpa using ha
    have h2 : ((lookupA outs "15").getD emptyNode).images?.isSome = true := by
      rcases Bool.or_eq_false_iff.mp hcf with ⟨_, hb⟩
      cases hx : ((lookupA outs "15").getD emptyNode).images? with
      | none => rw [hx] at hb; simp at hb
      | some l => rfl
    have hres : wfResolve outs
        = some (imagesOf ((lookupA outs "15").getD emptyNode)) := by
      rw [wfResolve_cases, if_neg (by rw [hcf]; simp)]
    constructor
    · rintro ⟨l, hl, hne⟩
      rw [hres] at hl
      rcases Option.some_inj.mp hl with rfl
      exact Or.inl ⟨h1, h2, hne⟩
    · rintro (⟨_, _, hne⟩ | ⟨hcp, _⟩)
      · exact ⟨_, hres, hne⟩
      · rcases hcp with h3 | h3
        · rw [h1] at h3; cases h3
        · rw [h3] at h2; simp at h2

theorem take4_nonempty (l : List ImageRef) : ((!(l.take 4).isEmpty) = true) ↔ l ≠ [] := by
  cases l with
  | nil => simp
  | cons a t => simp [List.take]

/-- C1 (amended; see the counterexample).  A job is treated as complete
iff the job id is a key of the history response AND the node selected by
the code's rule has a non-empty images sequence — where the rule keeps
the designated node whenever it is a truthy dict (mask path) or a truthy
dict with an `images` key (workflow path), falling back to the first
node with non-empty images only otherwise.  In particular neither poller
declares completion on mere presence of the job id key: completion
always exhibits a node with a non-empty images sequence. -/
theorem c1_completion_rule :
    (∀ (pid designated : String) (hist : History),
      maskReady pid designated hist = true ↔
        (hist ≠ [] ∧ ∃ entry, lookupA hist pid = some entry ∧
          ((∃ n, lookupA entry.outputs designated = some n ∧ truthyNode n = true
              ∧ nodeImagesTruthy n = true)
            ∨ (truthyOpt (lookupA entry.outputs designated) = false
              ∧ ∃ q ∈ entry.outputs, nodeImagesTruthy q.2 = true))))
    ∧ (∀ (pid designated : String) (hist : History),
        maskReady pid designated hist = true →
          ∃ entry, lookupA hist pid = some entry ∧
            ∃ q ∈ entry.outputs, imagesOf q.2 ≠ [])
    ∧ (∀ (pid : String) (hist : History),
        wfHistDecision pid hist = true ↔
          ∃ entry, lookupA hist pid = some entry ∧
            ((truthyNode ((lookupA entry.outputs "15").getD emptyNode) = true
                ∧ ((lookupA entry.outputs "15").getD emptyNode).images?.isSome = true
                ∧ imagesOf ((lookupA entry.outputs "15").getD emptyNode) ≠ [])
              ∨ ((truthyNode ((lookupA entry.outputs "15").getD emptyNode) = false
                  ∨ ((lookupA entry.outputs "15").getD emptyNode).images? = none)
                ∧ ∃ q ∈ entry.outputs, nodeImagesTruthy q.2 = true)))
    ∧ (∀ (pid : String) (hist : History),
        wfHistDecision pid hist = true →
          ∃ entry, lookupA hist pid = some entry ∧
            ∃ q ∈ entry.outputs, imagesOf q.2 ≠ []) := by
  have hmask_iff : ∀ (pid designated : String) (hist : History),
      maskReady pid designated hist = true ↔
        (hist ≠ [] ∧ ∃ entry, lookupA hist pid = some entry ∧
          ((∃ n, lookupA entry.outputs designated = some n ∧ truthyNode n = true
              ∧ nodeImagesTruthy n = true)
            ∨ (truthyOpt (lookupA entry.outputs designated) = false
              ∧ ∃ q ∈ entry.outputs, nodeImagesTruthy q.2 = true))) := by
    intro pid designated hist
    unfold maskReady
    cases hl : lookupA hist pid with
    | none =>
      constructor
      · intro h
        simp at h
      · rintro ⟨_, entry, he, _⟩
        cases he
    | some entry =>
      have hne : hist ≠ [] := lookupA_ne_nil hist pid entry hl
      have hie : hist.isEmpty = false := by
        cases hist
        · exact absurd rfl hne
        · rfl
      rw [hie]
      constructor
      · intro h
        simp only [Bool.not_false, Bool.true_and] at h
        refine ⟨hne, entry, rfl, ?_⟩
        apply (maskSelected_iff designated entry.outputs).mp
        cases hr : maskResolve designated entry.outputs with
        | none => rw [hr] at h; cases h
        | some n => rw [hr] at h; exact ⟨n, rfl, h⟩
      · rintro ⟨_, entry2, he2, hsel⟩
        rcases Option.some_inj.mp he2 with rfl
        rcases (maskSelected_iff designated entry.outputs).mpr hsel with ⟨n, hr, hn⟩
        show (match maskResolve designated entry.outputs with
            | some n => nodeImagesTruthy n
            | none => false) = true
        rw [hr]
        simpa using hn
  have hwf_iff : ∀ (pid : String) (hist : History),
      wfHistDecision pid hist = true ↔
        ∃ entry, lookupA hist pid = some entry ∧
          ((truthyNode ((lookupA entry.outputs "15").getD emptyNode) = true
              ∧ ((lookupA entry.outputs "15").getD emptyNode).images?.isSome = true
              ∧ imagesOf ((lookupA entry.outputs "15").getD emptyNode) ≠ [])
            ∨ ((truthyNode ((lookupA entry.outputs "15").getD emptyNode) = false
                ∨ ((lookupA entry.outputs "15").getD emptyNode).images? = none)
              ∧ ∃ q ∈ entry.outputs, nodeImagesTruthy q.2 = true)) := by
    intro pid hist
    unfold wfHistDecision wfHistImages
    cases hl : lookupA hist pid with
    | none =>
      constructor
      · intro h
        exact Bool.noConfusion h
      · rintro ⟨entry, he, _⟩
        cases he
    | some entry =>
      constructor
      · intro h
        refine ⟨entry, rfl, ?_⟩
        apply (wfSelected_iff entry.outputs).mp
        replace h : (match wfResolve entry.outputs with
            | some l => !(List.take 4 l).isEmpty
            | none => false) = true := h
        cases hr : wfResolve entry.outputs with
        | none =>
          rw [hr] at h
          exact Bool.noConfusion h
        | some l =>
          rw [hr] at h
          exact ⟨l, rfl, (take4_nonempty l).mp h⟩
      · rintro ⟨entry2, he2, hsel⟩
        rcases Option.some_inj.mp he2 with rfl
        rcases (wfSelected_iff entry.outputs).mpr hsel with ⟨l, hr, hne⟩
        show (match wfResolve entry.outputs with
            | some l => !(List.take 4 l).isEmpty
            | none => false) = true
        rw [hr]
        exact (take4_nonempty l).mpr hne
  refine ⟨hmask_iff, ?_, hwf_iff, ?_⟩
  · intro pid designated hist h
    rcases (hmask_iff pid designated hist).mp h with ⟨_, entry, he, hsel⟩
    refine ⟨entry, he, ?_⟩
    rcases hsel with ⟨n, hl2, _, hin⟩ | ⟨_, q, hq, hqt⟩
    · rcases lookupA_mem entry.outputs designated n hl2 with ⟨k2, hmem⟩
      exact ⟨(k2, n), hmem, nodeImagesTruthy_imagesOf n hin⟩
    · exact ⟨q, hq, nodeImagesTruthy_imagesOf q.2 hqt⟩
  · intro pid hist h
    rcases (hwf_iff pid hist).mp h with ⟨entry, he, hsel⟩
    refine ⟨entry, he, ?_⟩
    rcases hsel with ⟨hpt, _, hpne⟩ | ⟨_, q, hq, hqt⟩
    · cases hl15 : lookupA entry.outputs "15" with
      | none =>
        rw [hl15] at hpt
        cases hpt
      | some n =>
        rcases lookupA_mem entry.outputs "15" n hl15 with ⟨k2, hmem⟩
        rw [hl15] at hpne
        exact ⟨(k2, n), hmem, by simpa using hpne⟩
    · exact ⟨q, hq, nodeImagesTruthy_imagesOf q.2 hqt⟩

/-- C1 counterexample to the claim as stated: the job id is present as a
key and a node has a non-empty images sequence, yet neither poller
treats the job as complete (the mask poller keeps polling to timeout,
the workflow path fails), because the empty designated node blocks the
fallback. -/
theorem c1_counterexample :
    (lookupA histC1 "prompt-1").isSome = true ∧
      (∃ q ∈ outsC1, imagesOf q.2 ≠ []) ∧
      maskReady "prompt-1" "455" histC1 = false ∧
      wfHistDecision "prompt-1" histC1 = false := by
  refine ⟨rfl, ⟨("77", ⟨some [⟨"img_00001_.png", some "", some "output"⟩], false⟩),
    by decide, by decide⟩, by decide, by decide⟩

theorem c1_witness :
    maskReady "prompt-2" "455" histC1w = true ∧
      ∃ entry, lookupA histC1w "prompt-2" = some entry ∧
        ∃ q ∈ entry.outputs, imagesOf q.2 ≠ [] := by
  exact ⟨by decide, c1_completion_rule.2.1 "prompt-2" "455" histC1w (by decide)⟩

/-! ## C10 -/

theorem maxLen_mem (l : List String) (s : String) (h : s ∈ l) : s.length ≤ maxLen l := by
  induction l with
  | nil => cases h
  | cons a t ih =>
    rcases List.mem_cons.mp h with rfl | h2
    · simp [maxLen]
    · simp only [maxLen]
      exact le_trans (ih h2) (le_max_right _ _)

theorem natDigits_len (k : Nat) : ∀ n : Nat, 10 ^ k ≤ n →
    k + 1 ≤ (natDigits n).length := by
  induction k with
  | zero =>
    intro n _
    rw [natDigits_eq]
    split
    · simp
    · simp
  | succ k ih =>
    intro n hn
    have h10 : ¬ n < 10 := by
      have : (10:Nat) ≤ 10 ^ (k + 1) := by
        calc (10:Nat) = 10 ^ 1 := by norm_num
        _ ≤ 10 ^ (k + 1) := Nat.pow_le_pow_right (by norm_num) (by omega)
      omega
    rw [natDigits_eq, if_neg h10]
    have hdiv : 10 ^ k ≤ n / 10 := by
      rw [Nat.le_div_iff_mul_le (by norm_num)]
      calc 10 ^ k * 10 = 10 ^ (k + 1) := by ring
      _ ≤ n := hn
    have := ih (n / 10) hdiv
    simp only [List.length_append, List.length_cons, List.length_nil]
    omega

theorem decStr_len (n : Nat) : (decStr n).length = (natDigits n).length := rfl

theorem closeupName_len (i : Nat) (ext : String) :
    (closeupName i ext).length = 9 + (natDigits i).length + ext.length := by
  unfold closeupName
  rw [String.length_append, String.length_append, String.length_append, decStr_len]
  have h8 : ("closeup(" : String).length = 8 := rfl
  have h1 : (")" : String).length = 1 := rfl
  omega

/-- Index `10 ^ maxLen existing` always yields a name longer than every
string of `existing`, hence a free name. -/
theorem closeup_big_free (existing : List String) (ext : String) :
    closeupName (10 ^ maxLen existing) ext ∉ existing := by
  intro hmem
  have hd : maxLen existing + 1 ≤ (natDigits (10 ^ maxLen existing)).length :=
    natDigits_len (maxLen existing) _ (le_refl _)
  have hlong : maxLen existing < (closeupName (10 ^ maxLen existing) ext).length := by
    rw [closeupName_len]
    omega
  have hshort := maxLen_mem existing _ hmem
  omega

theorem nextIdx_finds : ∀ (fuel : Nat) (existing : List String) (ext : String) (i : Nat),
    (∃ j, i ≤ j ∧ j < i + fuel ∧ closeupName j ext ∉ existing) →
    (closeupName (nextIdx existing ext i fuel) ext ∉ existing
      ∧ i ≤ nextIdx existing ext i fuel
      ∧ ∀ j, i ≤ j → j < nextIdx existing ext i fuel → closeupName j ext ∈ existing) := by
  intro fuel
  induction fuel with
  | zero =>
    rintro existing ext i ⟨j, hj1, hj2, _⟩
    omega
  | succ f ih =>
    intro existing ext i hex
    by_cases hi : closeupName i ext ∈ existing
    · have hstep : nextIdx existing ext i (f + 1) = nextIdx existing ext (i + 1) f := by
        simp [nextIdx, hi]
      rw [hstep]
      have hex2 : ∃ j, i + 1 ≤ j ∧ j < (i + 1) + f ∧ closeupName j ext ∉ existing := by
        rcases hex with ⟨j, hj1, hj2, hj3⟩
        have hne : j ≠ i := fun e => hj3 (e ▸ hi)
        exact ⟨j, by omega, by omega, hj3⟩
      rcases ih existing ext (i + 1) hex2 with ⟨h1, h2, h3⟩
      refine ⟨h1, by omega, ?_⟩
      intro j hj1 hj2
      rcases Nat.eq_or_lt_of_le hj1 with rfl | hlt
      · exact hi
      · exact h3 j (by omega) hj2
    · have hstep : nextIdx existing ext i (f + 1) = i := by
        simp [nextIdx, hi]
      rw [hstep]
      exact ⟨hi, le_refl i, fun j hj1 hj2 => by omega⟩

/-- `next_closeup_name` returns `closeup({i}){ext}` for the least `i ≥ 1`
whose name is not among the existing ones. -/
theorem next_closeup_spec (existing : List String) (ext : String) :
    ∃ i, next_closeup_name existing ext = closeupName i ext ∧ 1 ≤ i
      ∧ closeupName i ext ∉ existing
      ∧ ∀ j, 1 ≤ j → j < i → closeupName j ext ∈ existing := by
  have hex : ∃ j, 1 ≤ j ∧ j < 1 + closeupFuel existing ∧ closeupName j ext ∉ existing := by
    refine ⟨10 ^ maxLen existing, Nat.one_le_pow _ _ (by norm_num), ?_,
      closeup_big_free existing ext⟩
    unfold closeupFuel
    omega
  rcases nextIdx_finds (closeupFuel existing) existing ext 1 hex with ⟨h1, h2, h3⟩
  exact ⟨nextIdx existing ext 1 (closeupFuel existing), rfl, h2, h1, h3⟩

theorem genNames_fresh : ∀ (items : List RnItem) (existing : List String),
    (∀ n ∈ genNames existing items, n ∉ existing) ∧ (genNames existing items).Nodup := by
  intro items
  induction items with
  | nil => intro existing; exact ⟨by simp [genNames], by simp [genNames]⟩
  | cons it rest ih =>
    intro existing
    by_cases hf : it.hasFace
    · have hstep : genNames existing (it :: rest) = genNames existing rest := by
        simp [genNames, hf]
      rw [hstep]
      exact ih existing
    · have hstep : genNames existing (it :: rest)
        = next_closeup_name existing ((splitextStr it.filename).2)
          :: genNames (next_closeup_name existing ((splitextStr it.filename).2)
            :: existing) rest := by
        simp [genNames, hf]
      rcases ih (next_closeup_name existing ((splitextStr it.filename).2) :: existing)
        with ⟨ih1, ih2⟩
      have hnm : next_closeup_name existing ((splitextStr it.filename).2) ∉ existing := by
        rcases next_closeup_spec existing ((splitextStr it.filename).2)
          with ⟨i, he, _, hni, _⟩
        rw [he]
        exact hni
      constructor
      · intro n hn
        rw [hstep] at hn
        rcases List.mem_cons.mp hn with rfl | hn2
        · exact hnm
        · intro hcontra
          exact ih1 n hn2 (List.mem_cons_of_mem _ hcontra)
      · rw [hstep]
        refine List.nodup_cons.mpr ⟨?_, ih2⟩
        intro hmem
        exact ih1 _ hmem (List.mem_cons_self _ _)

theorem process_rename_gen : ∀ (items : List RnItem) (existing : List String),
    ((process_rename existing items).filterMap
      (fun d => if d.renamed then some d.newName else none)) = genNames existing items := by
  intro items
  induction items with
  | nil => intro existing; rfl
  | cons it rest ih =>
    intro existing
    by_cases hf : it.hasFace
    · simp [process_rename, genNames, hf, List.filterMap_cons, ih]
    · simp [process_rename, genNames, hf, List.filterMap_cons, ih]

/-- C10 (confirmed).  Every no-face image is copied out under
`closeup(i){ext}` where `i` is the least index at or above 1 whose name
was not already generated in the run; consequently the generated names
of one run are pairwise distinct; and a kept original filename can
coincide with a generated name, as the concrete run shows. -/
theorem c10_closeup_names :
    (∀ (existing : List String) (ext : String),
      ∃ i, next_closeup_name existing ext = closeupName i ext ∧ 1 ≤ i
        ∧ closeupName i ext ∉ existing
        ∧ ∀ j, 1 ≤ j → j < i → closeupName j ext ∈ existing)
    ∧ (∀ items : List RnItem, (genNames [] items).Nodup)
    ∧ (∀ (items : List RnItem) (existing : List String),
        ((process_rename existing items).filterMap
          (fun d => if d.renamed then some d.newName else none))
          = genNames existing items)
    ∧ ((process_images [⟨true, "closeup(1).jpg"⟩, ⟨false, "photo.jpg"⟩]).map
        RenDetail.newName = ["closeup(1).jpg", "closeup(1).jpg"]) := by
  exact ⟨next_closeup_spec, fun items => (genNames_fresh items []).2,
    process_rename_gen, by decide⟩

theorem c10_witness :
    ∃ i, next_closeup_name ["closeup(1).jpg"] ".jpg" = closeupName i ".jpg" ∧ 1 ≤ i
      ∧ closeupName i ".jpg" ∉ ["closeup(1).jpg"]
      ∧ ∀ j, 1 ≤ j → j < i → closeupName j ".jpg" ∈ ["closeup(1).jpg"] :=
  c10_closeup_names.1 ["closeup(1).jpg"] ".jpg"

end Shein
